import Mathlib

/-!
Verification development for the Omni-Convert conversion service
(`server/routes.ts` plus the shared schema module).

The TypeScript source is shallowly embedded:
* pure string manipulation (MIME classification, text sanitising, line
  wrapping) is translated to Lean functions over `String` / `List Char`
  (a JS string is modelled as its sequence of Unicode scalar values);
* every call into an external capability (sharp, pdf2pic, pdftotext,
  pdf-lib, docx Packer, mammoth, CloudConvert, the file system) is an
  oracle field of an environment record: `none` means the call succeeds,
  `some m` means it throws an error whose `.message` is `m`;
* a thrown JS exception is an `Except.error` carrying the message;
* file-system effects that the claims talk about (deleting the uploaded
  input, deleting intermediate raster pages, writing the output) are
  returned as explicit effect data alongside each function's result.
-/

namespace OmniConvert

/-! ## JavaScript string primitives over `List Char` -/

/-- Characters removed by JavaScript `String.prototype.trim`
(the common ones; exotic Unicode spaces behave the same way for
every claim proved below, since `trim` only ever shrinks a string). -/
def jsWhitespaceChars : List Char := [' ', '\t', '\n', '\r', '\x0b', '\x0c', ' ', '﻿']

/-- Test for a JS-whitespace character. -/
def isJsSpace (c : Char) : Bool := jsWhitespaceChars.contains c

/-- Model of JavaScript `s.trim()`: strip whitespace from both ends. -/
def jsTrim (s : List Char) : List Char :=
  ((s.dropWhile isJsSpace).reverse.dropWhile isJsSpace).reverse

/-- Model of JavaScript `s.split("\n")`: `"".split("\n")` is `[""]`,
and every newline separates two (possibly empty) fields. -/
def jsSplitNl : List Char → List (List Char)
  | [] => [[]]
  | c :: cs =>
    if c = '\n' then
      [] :: jsSplitNl cs
    else
      match jsSplitNl cs with
      | [] => [[c]]
      | l :: ls => (c :: l) :: ls

theorem jsSplitNl_ne_nil (l : List Char) : jsSplitNl l ≠ [] := by
  induction l with
  | nil => simp [jsSplitNl]
  | cons c cs ih =>
    simp only [jsSplitNl]
    split
    · simp
    · cases h : jsSplitNl cs with
      | nil => simp
      | cons l ls => simp

theorem jsSplitNl_length_of_no_newline (l : List Char) (h : '\n' ∉ l) :
    (jsSplitNl l).length = 1 := by
  induction l with
  | nil => simp [jsSplitNl]
  | cons c cs ih =>
    have hc : ¬ c = '\n' := fun hcc => h (hcc ▸ List.mem_cons_self c cs)
    have hcs : '\n' ∉ cs := fun hm => h (List.mem_cons_of_mem c hm)
    simp only [jsSplitNl, if_neg hc]
    cases hsp : jsSplitNl cs with
    | nil => exact absurd hsp (jsSplitNl_ne_nil cs)
    | cons l ls =>
      have := ih hcs
      rw [hsp] at this
      simpa using this

theorem jsTrim_length_le (s : List Char) : (jsTrim s).length ≤ s.length := by
  unfold jsTrim
  calc ((s.dropWhile isJsSpace).reverse.dropWhile isJsSpace).reverse.length
      = ((s.dropWhile isJsSpace).reverse.dropWhile isJsSpace).length := by
        rw [List.length_reverse]
    _ ≤ (s.dropWhile isJsSpace).reverse.length := (List.dropWhile_sublist _).length_le
    _ = (s.dropWhile isJsSpace).length := by rw [List.length_reverse]
    _ ≤ s.length := (List.dropWhile_sublist _).length_le

theorem jsTrim_length_lt_of_head_space (c : Char) (cs : List Char) (h : isJsSpace c = true) :
    (jsTrim (c :: cs)).length < (c :: cs).length := by
  unfold jsTrim
  rw [List.dropWhile_cons_of_pos h]
  calc ((cs.dropWhile isJsSpace).reverse.dropWhile isJsSpace).reverse.length
      = ((cs.dropWhile isJsSpace).reverse.dropWhile isJsSpace).length := by
        rw [List.length_reverse]
    _ ≤ (cs.dropWhile isJsSpace).reverse.length := (List.dropWhile_sublist _).length_le
    _ = (cs.dropWhile isJsSpace).length := by rw [List.length_reverse]
    _ ≤ cs.length := (List.dropWhile_sublist _).length_le
    _ < (c :: cs).length := by simp [Nat.lt_succ_self]

/-! ## Format tables and the MIME classifier (`server/routes.ts`) -/

/-- `IMAGE_FORMATS` from the source. -/
def IMAGE_FORMATS : List String := ["PNG", "JPG", "WEBP", "TIFF"]

/-- `SUPPORTED_FORMATS` from `shared/schema.ts`. -/
def SUPPORTED_FORMATS : List String := ["PNG", "JPG", "WEBP", "TIFF", "PDF", "TXT", "WORD"]

/-- `getExtensionFromFormat`: lookup in the extension record
(`undefined` for a key outside the record is modelled as `""`;
the route only calls this after target validation). -/
def getExtensionFromFormat (format : String) : String :=
  if format = "PNG" then "png"
  else if format = "JPG" then "jpg"
  else if format = "WEBP" then "webp"
  else if format = "TIFF" then "tiff"
  else if format = "PDF" then "pdf"
  else if format = "TXT" then "txt"
  else if format = "WORD" then "docx"
  else ""

/-- Model of JS `s.split(sep).pop()` for the single-character separator
`/`: the substring after the last occurrence of the separator (the whole
string when the separator is absent). -/
def lastSegAfter (sep : Char) (s : String) : String :=
  String.mk ((s.data.reverse.takeWhile (fun c => c ≠ sep)).reverse)

/-- Model of JS `s.toUpperCase()` (ASCII letters, the only characters
the route's format labels contain). -/
def jsToUpper (s : String) : String := String.mk (s.data.map Char.toUpper)

/-- Model of JS `s.toLowerCase()` (ASCII letters). -/
def jsToLower (s : String) : String := String.mk (s.data.map Char.toLower)

/-- Model of JS `s.startsWith(pre)`. -/
def jsStartsWith (pre s : String) : Bool := pre.data.isPrefixOf s.data

/-- Model of JS `s.endsWith(suf)`. -/
def jsEndsWith (suf s : String) : Bool := suf.data.isSuffixOf s.data

/-- `getFormatFromMime`: the `mimeMap` record lookup, falling back to
`mimeType.split("/").pop()?.toUpperCase() || "UNKNOWN"` (JS `||` treats
the empty string as falsy). -/
def getFormatFromMime (mimeType : String) : String :=
  if mimeType = "image/png" then "PNG"
  else if mimeType = "image/jpeg" then "JPG"
  else if mimeType = "image/webp" then "WEBP"
  else if mimeType = "image/tiff" then "TIFF"
  else if mimeType = "application/pdf" then "PDF"
  else if mimeType = "text/plain" then "TXT"
  else if mimeType = "application/msword" then "WORD"
  else if mimeType = "application/vnd.openxmlformats-officedocument.wordprocessingml.document" then "WORD"
  else
    let seg := jsToUpper (lastSegAfter '/' mimeType)
    if seg = "" then "UNKNOWN" else seg

/-- `isWordMime` from the source. -/
def isWordMime (m : String) : Bool :=
  m = "application/msword" ||
  m = "application/vnd.openxmlformats-officedocument.wordprocessingml.document"

/-- `isImageMime` from the source. -/
def isImageMime (m : String) : Bool := jsStartsWith "image/" m

/-- `isPdfMime` from the source. -/
def isPdfMime (m : String) : Bool := m = "application/pdf"

/-- `isTextMime` from the source. -/
def isTextMime (m : String) : Bool := m = "text/plain"

/-- Source kinds of the specification's data model. -/
inductive SourceKind where
  | Image
  | Pdf
  | PlainText
  | WordDocument
  | Unknown
deriving DecidableEq, Repr

/-- The classifier `classifySource` of the specification, assembled from
the source's four MIME predicates exactly as the route handler tests them
(the predicates are mutually exclusive, so the test order is immaterial). -/
def classifySource (ct : String) : SourceKind :=
  if isImageMime ct then .Image
  else if isPdfMime ct then .Pdf
  else if isTextMime ct then .PlainText
  else if isWordMime ct then .WordDocument
  else .Unknown

/-! ## `sanitizeTextForPdf` (the Word-to-PDF sanitizer) -/

/-- First replacement pass of `sanitizeTextForPdf`:
the regex class `[\u0000-\u001F\u007F-\u009F]`, removed outright. -/
def isStrippedControl (c : Char) : Bool :=
  c.toNat ≤ 0x1F || (0x7F ≤ c.toNat && c.toNat ≤ 0x9F)

/-- Second replacement pass: the regex class `[-￿]`, removed
outright. -/
def isStrippedHigh (c : Char) : Bool :=
  0xF000 ≤ c.toNat && c.toNat ≤ 0xFFFF

/-- Character class kept verbatim by the third pass:
`[^\x20-\x7E\n\t]` is the set being replaced, so its complement
(printable ASCII, newline, tab) survives unchanged. -/
def isPdfSafe (c : Char) : Bool :=
  (0x20 ≤ c.toNat && c.toNat ≤ 0x7E) || c = '\n' || c = '\t'

/-- Replacement table of the third pass (typographic punctuation to
ASCII), defaulting to a single space. -/
def pdfReplacement (c : Char) : List Char :=
  if c = '•' || c = '‣' || c = '⁃' then ['-']
  else if c = '‘' || c = '’' then [Char.ofNat 39]
  else if c = '“' || c = '”' then ['"']
  else if c = '–' then ['-']
  else if c = '—' then ['-', '-']
  else if c = '…' then ['.', '.', '.']
  else if c = ' ' then [' ']
  else if c = '·' then ['-']
  else [' ']

/-- `sanitizeTextForPdf` from the source: the three chained `.replace`
passes (a global regex replace by `''` is a filter; the final pass maps
each matched character to its replacement string). -/
def sanitizeTextForPdf (text : List Char) : List Char :=
  let s1 := text.filter (fun c => !(isStrippedControl c))
  let s2 := s1.filter (fun c => !(isStrippedHigh c))
  s2.flatMap (fun c => if isPdfSafe c then [c] else pdfReplacement c)

/-- Lines computed by `convertWordToPdfBasic` after sanitising:
`text.split("\n")` applied to the sanitizer's output. -/
def wordToPdfLines (text : List Char) : List (List Char) :=
  jsSplitNl (sanitizeTextForPdf text)

theorem pdfReplacement_printable (a c : Char) (h : c ∈ pdfReplacement a) :
    0x20 ≤ c.toNat ∧ c.toNat ≤ 0x7E := by
  unfold pdfReplacement at h
  repeat' split at h
  all_goals simp_all

theorem mem_sanitize_printable (t : List Char) (c : Char)
    (h : c ∈ sanitizeTextForPdf t) : 0x20 ≤ c.toNat ∧ c.toNat ≤ 0x7E := by
  unfold sanitizeTextForPdf at h
  simp only [List.mem_flatMap] at h
  obtain ⟨a, ha, hc⟩ := h
  by_cases hsafe : isPdfSafe a = true
  · rw [if_pos hsafe] at hc
    simp only [List.mem_singleton] at hc
    subst hc
    have ha1 : ¬ isStrippedControl c = true := by
      have := (List.mem_filter.mp (List.mem_filter.mp ha).1).2
      simpa using this
    unfold isPdfSafe at hsafe
    unfold isStrippedControl at ha1
    simp only [Bool.or_eq_true, Bool.and_eq_true, decide_eq_true_eq] at hsafe ha1
    push_neg at ha1
    rcases hsafe with (hp | hn) | ht
    · exact ⟨hp.1, hp.2⟩
    · subst hn; exact absurd ha1.1 (by decide)
    · subst ht; exact absurd ha1.1 (by decide)
  · rw [if_neg hsafe] at hc
    exact pdfReplacement_printable a c hc

/-! ## `convertTextToPdf`: wrapping and page layout -/

/-- Page geometry constants of `convertTextToPdf` (pdf-lib units). -/
def pageWidthQ : ℚ := 612

/-- Page height constant (`pageHeight = 792`). -/
def pageHeightQ : ℚ := 792

/-- Margin constant (`margin = 50`). -/
def marginQ : ℚ := 50

/-- Font size constant (`fontSize = 12`). -/
def fontSizeQ : ℚ := 12

/-- Line height (`fontSize * 1.5`). -/
def lineHeightQ : ℚ := fontSizeQ * (3 / 2)

/-- Character budget per wrapped line (`maxCharsPerLine = 80`). -/
def maxCharsPerLine : Nat := 80

/-- Model of JavaScript `s.lastIndexOf(" ", k)`: search backwards from
index `k` (inclusive) for a space; `none` models the JS result `-1`. -/
def jsLastSpaceLe (s : List Char) : Nat → Option Nat
  | 0 => if s.get? 0 = some ' ' then some 0 else none
  | k + 1 => if s.get? (k + 1) = some ' ' then some (k + 1) else jsLastSpaceLe s k

theorem jsLastSpaceLe_le (s : List Char) (k i : Nat) (h : jsLastSpaceLe s k = some i) :
    i ≤ k := by
  induction k with
  | zero =>
    unfold jsLastSpaceLe at h
    split at h
    · simp at h; omega
    · simp at h
  | succ k ih =>
    unfold jsLastSpaceLe at h
    split at h
    · simp at h; omega
    · exact Nat.le_succ_of_le (ih h)

theorem jsLastSpaceLe_mem (s : List Char) (k i : Nat) (h : jsLastSpaceLe s k = some i) :
    s.get? i = some ' ' := by
  induction k with
  | zero =>
    unfold jsLastSpaceLe at h
    split at h
    · simp at h; subst h; assumption
    · simp at h
  | succ k ih =>
    unfold jsLastSpaceLe at h
    split at h
    · simp at h; subst h; assumption
    · exact ih h

theorem jsLastSpaceLe_greatest (s : List Char) (k i : Nat) (h : jsLastSpaceLe s k = some i)
    (j : Nat) (hj : j ≤ k) (hsp : s.get? j = some ' ') : j ≤ i := by
  induction k with
  | zero =>
    interval_cases j
    unfold jsLastSpaceLe at h
    rw [if_pos hsp] at h
    simp at h
    omega
  | succ k ih =>
    unfold jsLastSpaceLe at h
    split at h
    · simp at h; omega
    · rcases Nat.lt_or_ge j (k + 1) with hlt | hge
      · exact ih h (Nat.lt_succ_iff.mp hlt)
      · exfalso
        have : j = k + 1 := Nat.le_antisymm hj hge
        subst this
        simp_all

theorem jsLastSpaceLe_none (s : List Char) (k : Nat) (h : jsLastSpaceLe s k = none)
    (j : Nat) (hj : j ≤ k) : s.get? j ≠ some ' ' := by
  induction k with
  | zero =>
    interval_cases j
    unfold jsLastSpaceLe at h
    intro hc
    rw [if_pos hc] at h
    simp at h
  | succ k ih =>
    unfold jsLastSpaceLe at h
    split at h
    · simp at h
    · rcases Nat.lt_or_ge j (k + 1) with hlt | hge
      · exact ih h (Nat.lt_succ_iff.mp hlt)
      · have : j = k + 1 := Nat.le_antisymm hj hge
        subst this
        assumption

/-- Break index chosen by `convertTextToPdf` for an over-long line:
`remaining.lastIndexOf(" ", 80)`, or the hard break `80` when that
search returns `-1`. -/
def wrapBreakPoint (s : List Char) : Nat :=
  match jsLastSpaceLe s maxCharsPerLine with
  | some i => i
  | none => maxCharsPerLine

theorem wrapBreakPoint_le (s : List Char) : wrapBreakPoint s ≤ 80 := by
  unfold wrapBreakPoint
  split
  · next i h => exact jsLastSpaceLe_le s maxCharsPerLine i h
  · exact Nat.le_refl 80

theorem wrapBreakPoint_pos_or_head_space (s : List Char) :
    1 ≤ wrapBreakPoint s ∨ s.get? 0 = some ' ' := by
  unfold wrapBreakPoint
  split
  · next i h =>
    cases i with
    | zero => exact Or.inr (jsLastSpaceLe_mem s maxCharsPerLine 0 h)
    | succ n => exact Or.inl (Nat.succ_le_succ (Nat.zero_le n))
  · exact Or.inl (by decide)

theorem jsTrim_length_lt_of_get?_space (s : List Char) (h : s.get? 0 = some ' ') :
    (jsTrim s).length < s.length := by
  cases s with
  | nil => simp at h
  | cons c cs =>
    simp only [List.get?] at h
    have hc : c = ' ' := by simpa using h
    subst hc
    exact jsTrim_length_lt_of_head_space ' ' cs (by decide)

theorem wrap_step_shrinks (s : List Char) (h : maxCharsPerLine < s.length) :
    (jsTrim (s.drop (wrapBreakPoint s))).length < s.length := by
  by_cases h0 : wrapBreakPoint s = 0
  · rcases wrapBreakPoint_pos_or_head_space s with hpos | hsp
    · omega
    · rw [h0, List.drop_zero]
      exact jsTrim_length_lt_of_get?_space s hsp
  · calc (jsTrim (s.drop (wrapBreakPoint s))).length
        ≤ (s.drop (wrapBreakPoint s)).length := jsTrim_length_le _
      _ = s.length - wrapBreakPoint s := List.length_drop _ _
      _ < s.length := by
          unfold maxCharsPerLine at h
          omega

/-- The `while (remaining.length > maxCharsPerLine)` loop of
`convertTextToPdf`, together with the trailing
`if (remaining) wrappedLines.push(remaining)`. -/
def wrapLoop (remaining : List Char) : List (List Char) :=
  if h : maxCharsPerLine < remaining.length then
    let bp := wrapBreakPoint remaining
    remaining.take bp :: wrapLoop (jsTrim (remaining.drop bp))
  else if remaining.isEmpty then [] else [remaining]
termination_by remaining.length
decreasing_by
  exact wrap_step_shrinks remaining h

/-- Per-line wrapping of `convertTextToPdf`: a line within the
80-character budget is pushed unchanged, an over-long line goes through
the break loop. -/
def wrapLine (line : List Char) : List (List Char) :=
  if line.length ≤ maxCharsPerLine then [line] else wrapLoop line

/-- `wrappedLines` of `convertTextToPdf`: split the file text on
newlines and wrap each resulting line in order. -/
def convertTextToPdfWrapped (t : List Char) : List (List Char) :=
  (jsSplitNl t).flatMap wrapLine

theorem wrapLoop_length_le (n : Nat) :
    ∀ s : List Char, s.length ≤ n → ∀ l ∈ wrapLoop s, l.length ≤ 80 := by
  induction n with
  | zero =>
    intro s hs l hl
    rw [wrapLoop] at hl
    rw [dif_neg (by omega)] at hl
    have : s = [] := List.length_eq_zero.mp (Nat.le_zero.mp hs)
    subst this
    simp at hl
  | succ n ih =>
    intro s hs l hl
    rw [wrapLoop] at hl
    by_cases hlong : maxCharsPerLine < s.length
    · rw [dif_pos hlong] at hl
      rcases List.mem_cons.mp hl with hhd | htl
      · subst hhd
        calc (s.take (wrapBreakPoint s)).length ≤ wrapBreakPoint s :=
              by rw [List.length_take]; omega
          _ ≤ 80 := wrapBreakPoint_le s
      · refine ih (jsTrim (s.drop (wrapBreakPoint s))) ?_ l htl
        have := wrap_step_shrinks s hlong
        omega
    · rw [dif_neg hlong] at hl
      split at hl
      · simp at hl
      · simp only [List.mem_singleton] at hl
        subst hl
        unfold maxCharsPerLine at hlong
        omega

theorem wrapLine_length_le (line : List Char) : ∀ l ∈ wrapLine line, l.length ≤ 80 := by
  intro l hl
  unfold wrapLine at hl
  split at hl
  · simp only [List.mem_singleton] at hl
    subst hl
    unfold maxCharsPerLine at *
    omega
  · exact wrapLoop_length_le line.length line (Nat.le_refl _) l hl

/-- Lines drawn on each page (`linesPerPage`): floor of
(pageHeight − 2·margin) / lineHeight. -/
def linesPerPage : Nat := (⌊(pageHeightQ - 2 * marginQ) / lineHeightQ⌋).toNat

theorem linesPerPage_eq : linesPerPage = 38 := by
  have h1 : ((pageHeightQ - 2 * marginQ) / lineHeightQ : ℚ) = 346 / 9 := by
    norm_num [pageHeightQ, marginQ, lineHeightQ, fontSizeQ]
  have h2 : ⌊(346 / 9 : ℚ)⌋ = 38 := by
    rw [Int.floor_eq_iff]
    norm_num
  unfold linesPerPage
  rw [h1, h2]
  rfl

/-- One `drawText` invocation recorded by the paint loop. -/
structure DrawOp where
  page : Nat
  x : ℚ
  y : ℚ
  text : List Char
deriving Repr

/-- The paint loop of `convertTextToPdf`: walks `wrappedLines`, adding a
page and resetting `y`/`lineCount` whenever `lineCount >= linesPerPage`,
and draws each line at `x = margin`, `y = y - lineHeight`. -/
def layoutLoop : List (List Char) → Nat → Nat → ℚ → List DrawOp
  | [], _, _, _ => []
  | l :: ls, lineCount, page, y =>
    if linesPerPage ≤ lineCount then
      { page := page + 1, x := marginQ, y := (pageHeightQ - marginQ) - lineHeightQ, text := l } ::
        layoutLoop ls 1 (page + 1) ((pageHeightQ - marginQ) - lineHeightQ)
    else
      { page := page, x := marginQ, y := y - lineHeightQ, text := l } ::
        layoutLoop ls (lineCount + 1) page (y - lineHeightQ)

/-- Draw operations performed by `convertTextToPdf` on input text `t`. -/
def convertTextToPdfOps (t : List Char) : List DrawOp :=
  layoutLoop (convertTextToPdfWrapped t) 0 0 (pageHeightQ - marginQ)

theorem layoutLoop_get? (ls : List (List Char)) :
    ∀ (lineCount page : Nat) (y : ℚ) (i : Nat) (op : DrawOp),
      lineCount ≤ linesPerPage →
      (layoutLoop ls lineCount page y).get? i = some op →
      op.x = marginQ ∧ op.page = page + (lineCount + i) / linesPerPage := by
  induction ls with
  | nil => intro _ _ _ i op _ h; simp [layoutLoop] at h
  | cons l ls ih =>
    intro lineCount page y i op hle h
    have hpp : linesPerPage = 38 := linesPerPage_eq
    unfold layoutLoop at h
    by_cases hfull : linesPerPage ≤ lineCount
    · have hcnt : lineCount = linesPerPage := Nat.le_antisymm hle hfull
      rw [if_pos hfull] at h
      cases i with
      | zero =>
        simp only [List.get?, Option.some_inj] at h
        subst h
        refine ⟨rfl, ?_⟩
        change page + 1 = page + (lineCount + 0) / linesPerPage
        rw [hcnt, hpp]
      | succ j =>
        simp only [List.get?] at h
        have := ih 1 (page + 1) ((pageHeightQ - marginQ) - lineHeightQ) j op (by omega) h
        refine ⟨this.1, ?_⟩
        have hpage := this.2
        rw [hpp] at hpage
        rw [hpage, hcnt, hpp]
        omega
    · rw [if_neg hfull] at h
      rw [hpp] at hfull
      cases i with
      | zero =>
        simp only [List.get?, Option.some_inj] at h
        subst h
        refine ⟨rfl, ?_⟩
        change page = page + (lineCount + 0) / linesPerPage
        rw [hpp]
        omega
      | succ j =>
        simp only [List.get?] at h
        have := ih (lineCount + 1) page (y - lineHeightQ) j op (by omega) h
        refine ⟨this.1, ?_⟩
        rw [this.2]
        have harr : lineCount + (j + 1) = lineCount + 1 + j := by omega
        rw [harr]

/-! ## Conversion strategies

Each strategy's calls into external capabilities are oracles; a thrown
exception is `Except.error` with the error's `.message`. -/

/-- `convertWithCloudConvert`: throws immediately when no API key is
configured; otherwise any failure inside the remote job pipeline
(`internal = some m`) is caught and re-thrown with the
`CloudConvert conversion failed:` prefix. -/
def convertWithCloudConvert (configured : Bool) (internal : Option String) :
    Except String Unit :=
  if configured then
    match internal with
    | none => .ok ()
    | some m => .error ("CloudConvert conversion failed: " ++ m)
  else .error "CloudConvert API key not configured"

/-- `convertImage`: the target-format switch throws for a non-image
format before the encoder runs; otherwise the sharp `toFile` call is the
oracle `sharpRes`. Input/output paths carry no information here. -/
def convertImage (targetFormat : String) (sharpRes : Option String) :
    Except String Unit :=
  if targetFormat = "PNG" || targetFormat = "JPG" ||
     targetFormat = "WEBP" || targetFormat = "TIFF" then
    match sharpRes with
    | none => .ok ()
    | some m => .error m
  else .error ("Unsupported image format: " ++ targetFormat)

/-- `convertImageToPdf`: remote attempt first when configured, local
embedding (read file, sharp metadata, pdf-lib embed/save/write, all
summarised by the oracle `localOps`) as fallback. -/
def convertImageToPdf (configured : Bool) (ccInternal : Option String)
    (localOps : Option String) : Except String Unit :=
  let localRes : Except String Unit :=
    match localOps with
    | none => .ok ()
    | some m => .error m
  if configured then
    match convertWithCloudConvert true ccInternal with
    | .ok _ => .ok ()
    | .error _ => localRes
  else localRes

/-- `convertPdfToImage`: remote attempt first when configured; the local
path rasterises page 1 (`raster` is the pdf2pic result path), renames
for PNG/JPG and recodes through `convertImage` for WEBP/TIFF, and throws
a fixed message when rasterisation yields no path. -/
def convertPdfToImage (configured : Bool) (ccInternal : Option String)
    (raster : Option String) (recode : Option String) (targetFormat : String) :
    Except String Unit :=
  let localRes : Except String Unit :=
    match raster with
    | some _ =>
      if targetFormat = "PNG" || targetFormat = "JPG" then .ok ()
      else convertImage targetFormat recode
    | none => .error "Failed to convert PDF to image"
  if configured then
    match convertWithCloudConvert true ccInternal with
    | .ok _ => .ok ()
    | .error _ => localRes
  else localRes

/-- `convertPdfToText`: wraps a `pdftotext` invocation; a failure whose
stderr contains "Syntax Error" (`some true`) is reported as corruption,
any other failure (`some false`) as an extraction error. -/
def convertPdfToText (res : Option Bool) : Except String Unit :=
  match res with
  | none => .ok ()
  | some true =>
    .error "The PDF file appears to be corrupted or invalid. Please try a different PDF file."
  | some false =>
    .error "Failed to extract text from PDF. Please ensure the PDF contains readable text."

/-- `convertPdfToWordBasic`: the whole body sits in one try/catch whose
handler re-throws a single fixed message, so the observable behaviour is
success, or failure with that constant message. -/
def convertPdfToWordBasic (bodyOk : Bool) : Except String Unit :=
  if bodyOk then .ok ()
  else .error "Failed to convert PDF to WORD. The PDF may not contain extractable text."

/-! ### `convertPdfToWordSnapshot` with its file effects (claim C6) -/

/-- Oracles of the snapshot strategy: `pageCountRes` is
`getPdfPageCount` (pdf-lib load may throw), `render page` is the
pdf2pic result path for that page (`none` models a missing
`result.path` as well as a render failure), `readImg` covers the
read-back plus sharp metadata per raster file, `packerRes` the docx
`Packer.toBuffer`, `writeRes` the final `writeFileSync`. -/
structure SnapshotEnv where
  pageCountRes : Except String Nat := .ok 1
  render : Nat → Option String := fun _ => some "raster"
  readImg : String → Option String := fun _ => none
  packerRes : Option String := none
  writeRes : Option String := none

/-- File effects of one snapshot run: raster files created by the render
loop, files deleted by the `finally` block, and whether the output
document was written. -/
structure SnapshotFx where
  created : List String
  deleted : List String
  outputWritten : Bool
deriving Repr

/-- The `for (page = 1; page <= pageCount; ...)` render loop, counting
down on remaining pages: returns the raster paths created in order, and
the thrown message if some page produced no result path. -/
def renderPagesAux (render : Nat → Option String) : Nat → Nat → List String × Option String
  | _, 0 => ([], none)
  | page, n + 1 =>
    match render page with
    | none => ([], some ("Failed to render page " ++ toString page))
    | some p =>
      let rest := renderPagesAux render (page + 1) n
      (p :: rest.1, rest.2)

/-- Render loop started at page 1 over `n` pages. -/
def renderPages (render : Nat → Option String) (n : Nat) : List String × Option String :=
  renderPagesAux render 1 n

/-- The `finally` block: unlink every path in `imagePaths`, guarded by
`existsSync` (a path already removed is skipped). Returns the list of
paths actually deleted. -/
def cleanupGo (deleted : List String) : List String → List String
  | [] => deleted
  | p :: ps => if p ∈ deleted then cleanupGo deleted ps else cleanupGo (deleted ++ [p]) ps

theorem cleanupGo_superset (ps : List String) :
    ∀ (d : List String) (p : String), p ∈ d → p ∈ cleanupGo d ps := by
  induction ps with
  | nil => intro d p hp; simpa [cleanupGo] using hp
  | cons q qs ih =>
    intro d p hp
    unfold cleanupGo
    split
    · exact ih d p hp
    · exact ih (d ++ [q]) p (List.mem_append_left _ hp)

theorem cleanupGo_complete (ps : List String) :
    ∀ (d : List String) (p : String), p ∈ ps → p ∈ cleanupGo d ps := by
  induction ps with
  | nil => intro d p hp; simp at hp
  | cons q qs ih =>
    intro d p hp
    unfold cleanupGo
    rcases List.mem_cons.mp hp with rfl | hmem
    · split
      · next hd => exact cleanupGo_superset qs d p hd
      · exact cleanupGo_superset qs _ p (List.mem_append_right _ (List.mem_singleton.mpr rfl))
    · split
      · exact ih d p hmem
      · exact ih _ p hmem

/-- Read-back loop over the raster files: the first failing
`readFile`/`sharp metadata` call aborts the strategy with its message. -/
def firstFail (f : String → Option String) : List String → Option String
  | [] => none
  | p :: ps =>
    match f p with
    | some m => some m
    | none => firstFail f ps

/-- `convertPdfToWordSnapshot`: count pages (fail fast on 0), rasterise
every page, embed each raster as an image paragraph, write the document;
the `finally` block removes every raster file on every exit path. -/
def convertPdfToWordSnapshot (e : SnapshotEnv) : Except String Unit × SnapshotFx :=
  match e.pageCountRes with
  | .error m => (.error m, ⟨[], [], false⟩)
  | .ok n =>
    if n = 0 then (.error "PDF appears to be empty", ⟨[], [], false⟩)
    else
      let rendered := renderPages e.render n
      let paths := rendered.1
      let deleted := cleanupGo [] paths
      match rendered.2 with
      | some m => (.error m, ⟨paths, deleted, false⟩)
      | none =>
        match firstFail e.readImg paths with
        | some m => (.error m, ⟨paths, deleted, false⟩)
        | none =>
          match e.packerRes with
          | some m => (.error m, ⟨paths, deleted, false⟩)
          | none =>
            match e.writeRes with
            | some m => (.error m, ⟨paths, deleted, false⟩)
            | none => (.ok (), ⟨paths, deleted, true⟩)

/-! ### `convertWordToPdfBasic` (claim C9) -/

/-- Fixed message of the internal blank-document throw. -/
def emptyDocMsg : String := "No text content found in the document"

/-- Fixed message re-thrown by `convertWordToPdfBasic`'s catch block. -/
def wordPdfBasicFailMsg : String := "Failed to convert WORD to PDF. The document may be corrupted."

/-- Oracles of `convertWordToPdfBasic`: `mammothRes` is the
`mammoth.extractRawText` call (its `.value` on success), `pdfOps` covers
the pdf-lib document build, font embedding, save and the final
`writeFileSync` (all after the pure sanitise/wrap steps). -/
structure WordBasicEnv where
  mammothRes : Except String (List Char) := .ok ['x']
  pdfOps : Option String := none

/-- Body of `convertWordToPdfBasic`'s `try` block: extract text, throw
the blank-document message when `!text || text.trim().length === 0`,
sanitise and lay out, then run the pdf-lib pipeline. -/
def convertWordToPdfBasicInner (e : WordBasicEnv) : Except String Unit :=
  match e.mammothRes with
  | .error m => .error m
  | .ok text =>
    if text = [] ∨ jsTrim text = [] then .error emptyDocMsg
    else
      match e.pdfOps with
      | some m => .error m
      | none => .ok ()

/-- `convertWordToPdfBasic`: the catch block replaces any failure of the
`try` body with one fixed message. The second component records whether
the output file was written (only the full success path writes it). -/
def convertWordToPdfBasicRun (e : WordBasicEnv) : Except String Unit × Bool :=
  match convertWordToPdfBasicInner e with
  | .ok _ => (.ok (), true)
  | .error _ => (.error wordPdfBasicFailMsg, false)

/-! ### The PDF→WORD and WORD→PDF strategy chains (claims C2, C3) -/

/-- Strategies of the PDF→WORD chain. -/
inductive PWStrategy where
  | remote
  | snapshot
  | basic
deriving DecidableEq, Repr

/-- Environment of one `convertPdfToWord` call. -/
structure PdfWordEnv where
  ccConfigured : Bool := false
  ccInternal : Option String := none
  snapshot : SnapshotEnv := {}
  basicOk : Bool := true

/-- `convertPdfToWord`, instrumented with the ordered list of strategies
it actually attempts: CloudConvert first when configured (its failure is
only logged), then the page-snapshot strategy, then the text-extraction
strategy. -/
def convertPdfToWordT (e : PdfWordEnv) : Except String Unit × List PWStrategy :=
  let localChain (pre : List PWStrategy) : Except String Unit × List PWStrategy :=
    match (convertPdfToWordSnapshot e.snapshot).1 with
    | .ok _ => (.ok (), pre ++ [.snapshot])
    | .error _ => (convertPdfToWordBasic e.basicOk, pre ++ [.snapshot, .basic])
  if e.ccConfigured then
    match convertWithCloudConvert true e.ccInternal with
    | .ok _ => (.ok (), [.remote])
    | .error _ => localChain [.remote]
  else localChain []

/-- Steps of the WORD→PDF chain: the remote attempt, then the single
local step (which fails fast with the legacy-`.doc` message, or runs
`convertWordToPdfBasic`). -/
inductive WPStrategy where
  | remote
  | localStep
deriving DecidableEq, Repr

/-- Fixed message thrown for a legacy `.doc` input when the remote
service is unavailable or failed. -/
def docFallbackMsg : String :=
  "Cannot convert .doc files without CloudConvert. Please use .docx format or ensure CloudConvert API key is configured."

/-- Environment of one `convertWordToPdf` call. -/
structure WordPdfEnv where
  ccConfigured : Bool := false
  ccInternal : Option String := none
  mimeType : String := "application/vnd.openxmlformats-officedocument.wordprocessingml.document"
  inputPath : String := "uploads/file.docx"
  basic : WordBasicEnv := {}

/-- `isOldDoc` from `convertWordToPdf`. -/
def wpIsOldDoc (e : WordPdfEnv) : Bool :=
  e.mimeType = "application/msword" || jsEndsWith ".doc" (jsToLower e.inputPath)

/-- `convertWordToPdf`, instrumented with the attempted steps: remote
first when configured; after a remote failure (or absence) the local
step throws the `.doc` guard message for legacy documents and otherwise
runs `convertWordToPdfBasic`. -/
def convertWordToPdfT (e : WordPdfEnv) : Except String Unit × List WPStrategy :=
  let localStep (pre : List WPStrategy) : Except String Unit × List WPStrategy :=
    if wpIsOldDoc e then (.error docFallbackMsg, pre ++ [.localStep])
    else ((convertWordToPdfBasicRun e.basic).1, pre ++ [.localStep])
  if e.ccConfigured then
    match convertWithCloudConvert true e.ccInternal with
    | .ok _ => (.ok (), [.remote])
    | .error _ => localStep [.remote]
  else localStep []

/-- Message the WORD→PDF local step fails with (its own failure message,
independent of any earlier remote failure). -/
def wpLocalFailMsg (e : WordPdfEnv) : String :=
  if wpIsOldDoc e then docFallbackMsg else wordPdfBasicFailMsg

/-- Whether a given PDF→WORD strategy would succeed under `e`. -/
def pwSucceeds (e : PdfWordEnv) : PWStrategy → Bool
  | .remote => e.ccInternal.isNone
  | .snapshot =>
    match (convertPdfToWordSnapshot e.snapshot).1 with
    | .ok _ => true
    | .error _ => false
  | .basic => e.basicOk

/-- The full strategy chain for PDF→WORD under `e` (remote present only
when the credential is configured). -/
def pwChain (e : PdfWordEnv) : List PWStrategy :=
  (if e.ccConfigured then [.remote] else []) ++ [.snapshot, .basic]

/-- Prefix of a chain up to and including its first succeeding strategy
(the whole chain when none succeeds). -/
def takeThroughFirstSuccess (succ : PWStrategy → Bool) : List PWStrategy → List PWStrategy
  | [] => []
  | s :: r => if succ s then [s] else s :: takeThroughFirstSuccess succ r

/-! ## The `POST /api/convert` route handler -/

/-- The JSON body the handler sends (`ConversionResponse` in
`shared/schema.ts`), together with the HTTP status used. -/
structure ConvResponse where
  status : Nat
  success : Bool
  filename : Option String := none
  downloadUrl : Option String := none
  originalFormat : Option String := none
  targetFormat : Option String := none
  error : Option String := none
deriving DecidableEq, Repr

/-- Environment of one request: the uploaded file (if any), the raw
`targetFormat` field, the CloudConvert configuration flag (a module
level constant in the source, shared by every chain), and the oracles of
every conversion routine the handler can call. `fs.unlinkSync`,
`renameSync` and `copyFileSync` of existing files are assumed to
succeed. -/
structure RouteEnv where
  hasFile : Bool := true
  mimetype : String := "image/png"
  storedName : String := "123-file.png"
  originalname : String := "file.png"
  stamp : String := "456"
  target : String := "PNG"
  ccConfigured : Bool := false
  sharpImage : Option String := none
  ccInternalImgPdf : Option String := none
  imgPdfLocal : Option String := none
  ccInternalPdfImg : Option String := none
  rasterPage1 : Option String := some "converted/temp-pdf-page.1.png"
  pdfImgRecode : Option String := none
  pdfToTextRes : Option Bool := none
  ccInternalPdfWord : Option String := none
  snapshot : SnapshotEnv := {}
  pdfWordBasicOk : Bool := true
  ccInternalWordPdf : Option String := none
  wordBasic : WordBasicEnv := {}
  copyWord : Option String := none
  textPdfOps : Option String := none
  copyText : Option String := none

/-- `file.path`: multer stores the upload under the `uploads` directory. -/
def inputPath (e : RouteEnv) : String := "uploads/" ++ e.storedName

/-- `path.parse(name).name`: the file name with its final extension
removed (extensionless names are kept whole; the dotfile corner of
node's `path.parse` is not modelled — no claim inspects this value
beyond its presence). -/
def baseName (s : String) : String :=
  if s.data.contains '.' then
    String.mk (((s.data.reverse.dropWhile (fun c => c ≠ '.')).drop 1).reverse)
  else s

/-- `outputFilename` computed by the handler. -/
def outputFilenameOf (e : RouteEnv) : String :=
  baseName e.originalname ++ "-converted." ++ getExtensionFromFormat e.target

/-- `outputPath`: a timestamped name under the `converted` directory. -/
def outputPathOf (e : RouteEnv) : String :=
  "converted/" ++ e.stamp ++ "-" ++ outputFilenameOf e

/-- Default message substituted by the catch block when the caught
error has no message (JS `error?.message || "An error occurred..."`,
where the empty string is falsy). -/
def genericCatchMsg : String :=
  "An error occurred during conversion. Please try again with a different file or format."

/-- 200 response sent on each success path. -/
def successResp (e : RouteEnv) : ConvResponse :=
  { status := 200
    success := true
    filename := some (outputFilenameOf e)
    downloadUrl := some ("/api/download/" ++ e.stamp ++ "-" ++ outputFilenameOf e)
    originalFormat := some (getFormatFromMime e.mimetype)
    targetFormat := some e.target
    error := none }

/-- 500 response sent by the catch block for a thrown message `m`. -/
def catchResp (m : String) : ConvResponse :=
  { status := 500
    success := false
    error := some (if m = "" then genericCatchMsg else m) }

/-- Shape shared by every conversion branch: on success the input file
is unlinked and the 200 body sent; on a thrown error, control reaches
the catch block, which unlinks the still-present input file once and
sends the 500 body. In both cases the handler deletes exactly the input
path. -/
def finishBranch (e : RouteEnv) (r : Except String Unit) : ConvResponse × List String :=
  match r with
  | .ok _ => (successResp e, [inputPath e])
  | .error m => (catchResp m, [inputPath e])

/-- Message of the unsupported-conversion fallthrough, built per source
kind exactly as in the handler. -/
def unsupportedMsg (e : RouteEnv) : String :=
  "Cannot convert " ++ getFormatFromMime e.mimetype ++ " to " ++ e.target ++ ". " ++
    (if isImageMime e.mimetype then
      "Images can be converted to: " ++ String.intercalate ", " IMAGE_FORMATS ++ ", PDF."
    else if isPdfMime e.mimetype then
      "PDFs can be converted to: " ++ String.intercalate ", " IMAGE_FORMATS ++ ", TXT, WORD."
    else if isWordMime e.mimetype then
      "WORD documents can be converted to: PDF."
    else if isTextMime e.mimetype then
      "Text files can be converted to: PDF, TXT."
    else "This file format is not supported for conversion.")

/-- The `POST /api/convert` handler. Returns the response body and the
list of paths the handler itself unlinks (the conversion routines'
internal temp-file deletions are modelled inside those routines). -/
def handleConvert (e : RouteEnv) : ConvResponse × List String :=
  if e.hasFile then
    if SUPPORTED_FORMATS.contains e.target then
      let isImageSource := isImageMime e.mimetype
      let isPdfSource := isPdfMime e.mimetype
      let isTextSource := isTextMime e.mimetype
      let isImageTarget := IMAGE_FORMATS.contains e.target
      if isImageSource && isImageTarget then
        finishBranch e (convertImage e.target e.sharpImage)
      else if isImageSource && (e.target = "PDF") then
        finishBranch e (convertImageToPdf e.ccConfigured e.ccInternalImgPdf e.imgPdfLocal)
      else if isPdfSource && isImageTarget then
        finishBranch e
          (convertPdfToImage e.ccConfigured e.ccInternalPdfImg e.rasterPage1 e.pdfImgRecode e.target)
      else if isPdfSource && (e.target = "TXT") then
        finishBranch e (convertPdfToText e.pdfToTextRes)
      else if isPdfSource && (e.target = "WORD") then
        finishBranch e
          (convertPdfToWordT
            { ccConfigured := e.ccConfigured
              ccInternal := e.ccInternalPdfWord
              snapshot := e.snapshot
              basicOk := e.pdfWordBasicOk }).1
      else
        let isWordSource := isWordMime e.mimetype
        if isWordSource && (e.target = "PDF") then
          finishBranch e
            (convertWordToPdfT
              { ccConfigured := e.ccConfigured
                ccInternal := e.ccInternalWordPdf
                mimeType := e.mimetype
                inputPath := inputPath e
                basic := e.wordBasic }).1
        else if isWordSource && (e.target = "WORD") then
          finishBranch e
            (match e.copyWord with
             | none => .ok ()
             | some m => .error m)
        else if isTextSource && (e.target = "PDF") then
          finishBranch e
            (match e.textPdfOps with
             | none => .ok ()
             | some m => .error m)
        else if isTextSource && (e.target = "TXT") then
          finishBranch e
            (match e.copyText with
             | none => .ok ()
             | some m => .error m)
        else
          ({ status := 400
             success := false
             originalFormat := some (getFormatFromMime e.mimetype)
             targetFormat := some e.target
             error := some (unsupportedMsg e) }, [inputPath e])
    else
      ({ status := 400
         success := false
         error := some ("Invalid target format. Supported formats: " ++
           String.intercalate ", " SUPPORTED_FORMATS) }, [inputPath e])
  else
    ({ status := 400
       success := false
       error := some "No file uploaded. Please select a file to convert." }, [])

/-! ## Supporting lemmas for the claim theorems -/

theorem cleanupGo_subset (ps : List String) :
    ∀ (d : List String) (p : String), p ∈ cleanupGo d ps → p ∈ d ∨ p ∈ ps := by
  induction ps with
  | nil => intro d p hp; left; simpa [cleanupGo] using hp
  | cons q qs ih =>
    intro d p hp
    unfold cleanupGo at hp
    split at hp
    · rcases ih d p hp with h | h
      · left; exact h
      · right; exact List.mem_cons_of_mem _ h
    · rcases ih (d ++ [q]) p hp with h | h
      · rcases List.mem_append.mp h with h | h
        · left; exact h
        · right; exact List.mem_cons.mpr (Or.inl (List.mem_singleton.mp h))
      · right; exact List.mem_cons_of_mem _ h

theorem append_ne_empty_of_left (s t : String) (h : s.length ≠ 0) : s ++ t ≠ "" := by
  intro hc
  have hlen := congrArg String.length hc
  rw [String.length_append] at hlen
  simp at hlen
  omega

theorem unsupportedMsg_ne_empty (e : RouteEnv) : unsupportedMsg e ≠ "" := by
  unfold unsupportedMsg
  intro hc
  have hlen := congrArg String.length hc
  simp only [String.length_append] at hlen
  have h15 : String.length "Cannot convert " = 15 := rfl
  simp at hlen
  omega

/-- Property of a terminal outcome the spec demands: a success carries a
filename and no error; a failure carries a non-empty error and no
filename. -/
def GoodOutcome (r : ConvResponse) : Prop :=
  (r.success = true ∧ r.filename.isSome = true ∧ r.error = none) ∨
  (r.success = false ∧ r.filename = none ∧ ∃ m, r.error = some m ∧ m ≠ "")

theorem goodOutcome_finishBranch (e : RouteEnv) (r : Except String Unit) :
    GoodOutcome (finishBranch e r).1 := by
  cases r with
  | ok u => left; exact ⟨rfl, rfl, rfl⟩
  | error m =>
    right
    refine ⟨rfl, rfl, (if m = "" then genericCatchMsg else m), rfl, ?_⟩
    by_cases h : m = ""
    · rw [if_pos h]
      decide
    · rw [if_neg h]
      exact h

theorem outputPath_ne_inputPath (e : RouteEnv) : outputPathOf e ≠ inputPath e := by
  intro hc
  have hd := congrArg (fun s => s.data.head?) hc
  simp only [outputPathOf, inputPath, String.data_append] at hd
  simp only [List.cons_append, List.head?_cons, Option.some.injEq] at hd
  exact absurd hd (by decide)

/-! ## Claim theorems -/

/-- C10: the Word-to-PDF sanitizer never outputs a tab, newline or
carriage return (the first pass strips the whole U+0000–U+001F range,
which includes them, even though the final pass nominally exempts
`\n`/`\t`), so the split on `"\n"` in `convertWordToPdfBasic` always
yields exactly one line and the document's line breaks are lost. -/
theorem sanitizer_strips_line_breaks :
    ∀ t : List Char,
      ('\t' ∉ sanitizeTextForPdf t ∧ '\n' ∉ sanitizeTextForPdf t ∧
        '\r' ∉ sanitizeTextForPdf t) ∧
      (wordToPdfLines t).length = 1 := by
  intro t
  have hkey : ∀ c ∈ sanitizeTextForPdf t, c ≠ '\t' ∧ c ≠ '\n' ∧ c ≠ '\r' := by
    intro c hc
    have h := mem_sanitize_printable t c hc
    refine ⟨?_, ?_, ?_⟩ <;> (rintro rfl; revert h; decide)
  refine ⟨⟨?_, ?_, ?_⟩, ?_⟩
  · intro hmem; exact (hkey _ hmem).1 rfl
  · intro hmem; exact (hkey _ hmem).2.1 rfl
  · intro hmem; exact (hkey _ hmem).2.2 rfl
  · exact jsSplitNl_length_of_no_newline _ (fun hmem => (hkey _ hmem).2.1 rfl)

/-- Witness for C10 at a concrete document text. -/
theorem sanitizer_strips_line_breaks_witness :
    (wordToPdfLines ('a' :: '\n' :: 'b' :: [])).length = 1 :=
  (sanitizer_strips_line_breaks ('a' :: '\n' :: 'b' :: [])).2

/-- C6: the page-snapshot strategy deletes every intermediate raster
file it created before returning (and only those files), on success and
on every failure path, and on failure it has not written the output
document. -/
theorem snapshot_rasters_cleaned :
    ∀ e : SnapshotEnv,
      (∀ p ∈ (convertPdfToWordSnapshot e).2.created,
        p ∈ (convertPdfToWordSnapshot e).2.deleted) ∧
      (∀ p ∈ (convertPdfToWordSnapshot e).2.deleted,
        p ∈ (convertPdfToWordSnapshot e).2.created) ∧
      (∀ m, (convertPdfToWordSnapshot e).1 = .error m →
        (convertPdfToWordSnapshot e).2.outputWritten = false) := by
  intro e
  unfold convertPdfToWordSnapshot
  cases e.pageCountRes with
  | error m =>
    exact ⟨by simp, by simp, fun m h => rfl⟩
  | ok n =>
    dsimp only
    by_cases hn : n = 0
    · rw [if_pos hn]
      exact ⟨by simp, by simp, fun m h => rfl⟩
    · rw [if_neg hn]
      have hcreate : ∀ p ∈ (renderPages e.render n).1,
          p ∈ cleanupGo [] (renderPages e.render n).1 :=
        fun p hp => cleanupGo_complete _ [] p hp
      have hsub : ∀ p ∈ cleanupGo [] (renderPages e.render n).1,
          p ∈ (renderPages e.render n).1 := by
        intro p hp
        rcases cleanupGo_subset _ [] p hp with h | h
        · simp at h
        · exact h
      cases (renderPages e.render n).2 with
      | some m => exact ⟨hcreate, hsub, fun m h => rfl⟩
      | none =>
        dsimp only
        cases firstFail e.readImg (renderPages e.render n).1 with
        | some m => exact ⟨hcreate, hsub, fun m h => rfl⟩
        | none =>
          dsimp only
          cases e.packerRes with
          | some m => exact ⟨hcreate, hsub, fun m h => rfl⟩
          | none =>
            dsimp only
            cases e.writeRes with
            | some m => exact ⟨hcreate, hsub, fun m h => rfl⟩
            | none => exact ⟨hcreate, hsub, by simp⟩

/-- Witness for C6: a run whose second page fails to render still
deletes the raster written for page 1 and writes no output. -/
theorem snapshot_rasters_cleaned_witness :
    ("p1" ∈ (convertPdfToWordSnapshot
        { pageCountRes := .ok 2,
          render := fun page => if page = 1 then some "p1" else none }).2.deleted) ∧
    (convertPdfToWordSnapshot
        { pageCountRes := .ok 2,
          render := fun page => if page = 1 then some "p1" else none }).2.outputWritten = false := by
  refine ⟨?_, ?_⟩
  · exact (snapshot_rasters_cleaned _).1 "p1" (by decide)
  · exact (snapshot_rasters_cleaned _).2.2 "Failed to render page 2" rfl

/-- Counterexample to C9 as stated: on blank extracted text the
strategy's surfaced error is the generic corrupted-document message, not
the internal blank-document (`EmptyDocument`) message, because the
blank-document throw sits inside the strategy's own catch-all. -/
theorem word_empty_doc_counterexample :
    (convertWordToPdfBasicRun { mammothRes := .ok [], pdfOps := none }).1 =
      .error wordPdfBasicFailMsg ∧
    convertWordToPdfBasicInner { mammothRes := .ok [], pdfOps := none } =
      .error emptyDocMsg ∧
    wordPdfBasicFailMsg ≠ emptyDocMsg ∧
    (convertWordToPdfBasicRun { mammothRes := .ok [], pdfOps := none }).2 = false := by
  exact ⟨rfl, rfl, by decide, rfl⟩

/-- C9 (amended): on extraction output that is empty or blank after
trimming, `convertWordToPdfBasic` fails and writes no output file; it
raises the blank-document message internally, but its catch block
replaces the surfaced error with the generic corrupted-document
message. -/
theorem word_empty_doc_fails :
    ∀ (e : WordBasicEnv) (text : List Char),
      e.mammothRes = .ok text →
      (text = [] ∨ jsTrim text = []) →
      convertWordToPdfBasicInner e = .error emptyDocMsg ∧
      (convertWordToPdfBasicRun e).1 = .error wordPdfBasicFailMsg ∧
      (convertWordToPdfBasicRun e).2 = false := by
  intro e text hm hblank
  have hinner : convertWordToPdfBasicInner e = .error emptyDocMsg := by
    unfold convertWordToPdfBasicInner
    rw [hm]
    dsimp only
    rw [if_pos hblank]
  refine ⟨hinner, ?_, ?_⟩ <;>
    · unfold convertWordToPdfBasicRun
      rw [hinner]

/-- Witness for the amended C9 at whitespace-only extracted text. -/
theorem word_empty_doc_fails_witness :
    (convertWordToPdfBasicRun { mammothRes := .ok [' ', '\t'], pdfOps := none }).1 =
      .error wordPdfBasicFailMsg :=
  (word_empty_doc_fails { mammothRes := .ok [' ', '\t'], pdfOps := none }
    [' ', '\t'] rfl (Or.inr (by decide))).2.1

/-- C4 evidence: for a Word-document source with an unsupported target
the guidance message lists only PDF, although the same handler also
supports the WORD passthrough for Word sources — the message omits a
supported format, contradicting the spec's exact-list requirement. -/
theorem word_source_guidance_eval :
    (handleConvert { mimetype := "application/msword", target := "PNG" }).1 =
      { status := 400, success := false,
        originalFormat := some "WORD", targetFormat := some "PNG",
        error := some "Cannot convert WORD to PNG. WORD documents can be converted to: PDF." } ∧
    (handleConvert { mimetype := "application/msword", target := "WORD" }).1.success = true := by
  exact ⟨rfl, rfl⟩

/-- Counterexample to C7 as stated: the unrecognised content type
`audio/mpeg` does fall into the default branch, but its reported
original format is the upper-cased subtype `"MPEG"`, not `"UNKNOWN"`. -/
theorem classifier_counterexample :
    getFormatFromMime "audio/mpeg" = "MPEG" ∧
    (handleConvert { mimetype := "audio/mpeg", target := "PNG" }).1.originalFormat =
      some "MPEG" ∧
    getFormatFromMime "audio/mpeg" ≠ "UNKNOWN" := by
  exact ⟨rfl, rfl, by decide⟩

/-- C7 (amended): the classifier is total — the known content types map
to their kinds and everything else maps to `Unknown` — and an
unrecognised content type lands in the default not-supported branch; but
the original-format label it reports is the upper-cased last `/`-segment
of the content type (`"MPEG"` for `audio/mpeg`), with `"UNKNOWN"` used
only when that segment is empty. -/
theorem classifier_total :
    classifySource "image/png" = SourceKind.Image ∧
    classifySource "image/jpeg" = SourceKind.Image ∧
    classifySource "application/pdf" = SourceKind.Pdf ∧
    classifySource "text/plain" = SourceKind.PlainText ∧
    classifySource "application/msword" = SourceKind.WordDocument ∧
    classifySource "application/vnd.openxmlformats-officedocument.wordprocessingml.document" =
      SourceKind.WordDocument ∧
    (∀ ct, isImageMime ct = false → isPdfMime ct = false → isTextMime ct = false →
      isWordMime ct = false → classifySource ct = SourceKind.Unknown) ∧
    classifySource "audio/mpeg" = SourceKind.Unknown ∧
    getFormatFromMime "audio/mpeg" = "MPEG" ∧
    getFormatFromMime "audio/" = "UNKNOWN" ∧
    (handleConvert { mimetype := "audio/mpeg", target := "PNG" }).1.error =
      some "Cannot convert MPEG to PNG. This file format is not supported for conversion." := by
  refine ⟨rfl, rfl, rfl, rfl, rfl, rfl, ?_, rfl, rfl, rfl, rfl⟩
  intro ct h1 h2 h3 h4
  unfold classifySource
  simp [h1, h2, h3, h4]

/-- Witness for C7 (amended) at another unrecognised content type. -/
theorem classifier_total_witness :
    classifySource "application/zip" = SourceKind.Unknown :=
  classifier_total.2.2.2.2.2.2.1 "application/zip" (by decide) (by decide) (by decide) (by decide)

/-- C2: for PDF→WORD the dispatcher attempts exactly the prefix of the
chain (remote when configured, then snapshot, then text-extraction) up
to and including its first success; without a credential the remote
strategy never appears among the attempts, with a configured-but-failing
remote the snapshot strategy is still attempted, and the job succeeds
exactly when some attempted strategy succeeds. -/
theorem pdf_word_chain_order :
    ∀ e : PdfWordEnv,
      (convertPdfToWordT e).2 = takeThroughFirstSuccess (pwSucceeds e) (pwChain e) ∧
      (e.ccConfigured = false → PWStrategy.remote ∉ (convertPdfToWordT e).2) ∧
      (e.ccConfigured = true → e.ccInternal ≠ none →
        PWStrategy.snapshot ∈ (convertPdfToWordT e).2) ∧
      ((convertPdfToWordT e).1 = .ok () ↔
        ∃ s ∈ (convertPdfToWordT e).2, pwSucceeds e s = true) := by
  intro e
  obtain ⟨cc, ci, snap, bas⟩ := e
  cases hsnap : (convertPdfToWordSnapshot snap).1 with
  | ok u =>
    cases cc <;> cases ci <;> cases bas <;>
      simp_all [convertPdfToWordT, pwChain, pwSucceeds, takeThroughFirstSuccess,
        convertWithCloudConvert, convertPdfToWordBasic]
  | error msg =>
    cases cc <;> cases ci <;> cases bas <;>
      simp_all [convertPdfToWordT, pwChain, pwSucceeds, takeThroughFirstSuccess,
        convertWithCloudConvert, convertPdfToWordBasic]

/-- Witness for C2: with a configured but failing remote and a failing
snapshot, the snapshot strategy is still among the attempts. -/
theorem pdf_word_chain_order_witness :
    PWStrategy.snapshot ∈ (convertPdfToWordT
      { ccConfigured := true, ccInternal := some "boom",
        snapshot := { pageCountRes := .ok 0 }, basicOk := false }).2 :=
  (pdf_word_chain_order _).2.2.1 rfl (by simp)

/-- C3: when every attempted strategy of a multi-strategy chain fails,
the surfaced error is exactly the failure message of the last attempted
strategy — the constant text-extraction message for PDF→WORD, and the
local step's own message for WORD→PDF — and the surfaced outcome is
independent of the failure message of the earlier remote attempt. -/
theorem last_failure_surfaced :
    ∀ (ep : PdfWordEnv) (ew : WordPdfEnv),
      ((ep.ccConfigured = true → ep.ccInternal ≠ none) →
       (∀ u, (convertPdfToWordSnapshot ep.snapshot).1 ≠ .ok u) →
       ep.basicOk = false →
        (convertPdfToWordT ep).1 =
          .error "Failed to convert PDF to WORD. The PDF may not contain extractable text." ∧
        (convertPdfToWordT ep).2.getLast? = some PWStrategy.basic) ∧
      ((ew.ccConfigured = true → ew.ccInternal ≠ none) →
       (wpIsOldDoc ew = false → ∀ u, (convertWordToPdfBasicRun ew.basic).1 ≠ .ok u) →
        (convertWordToPdfT ew).1 = .error (wpLocalFailMsg ew) ∧
        (convertWordToPdfT ew).2.getLast? = some WPStrategy.localStep) ∧
      (∀ m₁ m₂ : String,
        (convertPdfToWordT { ep with ccInternal := some m₁ }).1 =
        (convertPdfToWordT { ep with ccInternal := some m₂ }).1) ∧
      (∀ m₁ m₂ : String,
        (convertWordToPdfT { ew with ccInternal := some m₁ }).1 =
        (convertWordToPdfT { ew with ccInternal := some m₂ }).1) := by
  intro ep ew
  refine ⟨?_, ?_, ?_, ?_⟩
  · intro hcc hsnap hbas
    obtain ⟨cc, ci, snap, bas⟩ := ep
    subst hbas
    cases hs : (convertPdfToWordSnapshot snap).1 with
    | ok u => exact absurd hs (hsnap u)
    | error msg =>
      cases cc with
      | false =>
        simp_all [convertPdfToWordT, convertPdfToWordBasic]
      | true =>
        cases ci with
        | none => exact absurd rfl (hcc rfl)
        | some m =>
          simp_all [convertPdfToWordT, convertPdfToWordBasic, convertWithCloudConvert]
  · intro hcc hbas
    obtain ⟨cc, ci, mt, ip, bsc⟩ := ew
    by_cases hold : wpIsOldDoc ⟨cc, ci, mt, ip, bsc⟩ = true
    · cases cc with
      | false =>
        simp_all [convertWordToPdfT, wpLocalFailMsg]
      | true =>
        cases ci with
        | none => exact absurd rfl (hcc rfl)
        | some m =>
          simp_all [convertWordToPdfT, wpLocalFailMsg, convertWithCloudConvert]
    · have holdf : wpIsOldDoc ⟨cc, ci, mt, ip, bsc⟩ = false := by
        simpa using hold
      cases hbr : (convertWordToPdfBasicRun bsc).1 with
      | ok u => exact absurd hbr (hbas holdf u)
      | error msg =>
        have hmsg : msg = wordPdfBasicFailMsg := by
          unfold convertWordToPdfBasicRun at hbr
          rcases h : convertWordToPdfBasicInner bsc with _ | m <;> rw [h] at hbr <;>
            simp_all
        subst hmsg
        cases cc with
        | false =>
          simp_all [convertWordToPdfT, wpLocalFailMsg]
        | true =>
          cases ci with
          | none => exact absurd rfl (hcc rfl)
          | some m =>
            simp_all [convertWordToPdfT, wpLocalFailMsg, convertWithCloudConvert]
  · intro m₁ m₂
    obtain ⟨cc, ci, snap, bas⟩ := ep
    cases cc <;>
      simp [convertPdfToWordT, convertWithCloudConvert]
  · intro m₁ m₂
    obtain ⟨cc, ci, mt, ip, bsc⟩ := ew
    cases cc <;>
      simp [convertWordToPdfT, convertWithCloudConvert, wpIsOldDoc]

/-- Witness for C3: a configured-but-failing remote, a zero-page PDF and
a failing text extraction surface exactly the text-extraction message;
a legacy `.doc` upload surfaces the `.doc` guard message. -/
theorem last_failure_surfaced_witness :
    (convertPdfToWordT
      { ccConfigured := true, ccInternal := some "remote boom",
        snapshot := { pageCountRes := .ok 0 }, basicOk := false }).1 =
      .error "Failed to convert PDF to WORD. The PDF may not contain extractable text." ∧
    (convertWordToPdfT
      { ccConfigured := true, ccInternal := some "remote boom",
        mimeType := "application/msword" }).1 = .error docFallbackMsg := by
  constructor
  · exact ((last_failure_surfaced
      { ccConfigured := true, ccInternal := some "remote boom",
        snapshot := { pageCountRes := .ok 0 }, basicOk := false } {}).1
      (fun _ => by simp) (fun u h => Except.noConfusion h) rfl).1
  · exact ((last_failure_surfaced {}
      { ccConfigured := true, ccInternal := some "remote boom",
        mimeType := "application/msword" }).2.1
      (fun _ => by simp) (fun hold => absurd hold (by decide))).1

theorem finishBranch_deletes (e : RouteEnv) (r : Except String Unit) :
    (finishBranch e r).2 = [inputPath e] := by
  cases r <;> rfl

/-- Exhaustive case analysis of the handler when a file was uploaded:
the result is a conversion branch wrapped by `finishBranch`, the
unsupported-conversion response, or the invalid-target response. -/
theorem handleConvert_hasFile_cases (e : RouteEnv) (hf : e.hasFile = true)
    (motive : ConvResponse × List String → Prop)
    (hbranch : ∀ r : Except String Unit, motive (finishBranch e r))
    (hunsupported : motive
      ({ status := 400, success := false,
         originalFormat := some (getFormatFromMime e.mimetype),
         targetFormat := some e.target,
         error := some (unsupportedMsg e) }, [inputPath e]))
    (hinvalid : motive
      ({ status := 400, success := false,
         error := some ("Invalid target format. Supported formats: " ++
           String.intercalate ", " SUPPORTED_FORMATS) }, [inputPath e])) :
    motive (handleConvert e) := by
  unfold handleConvert
  rw [if_pos hf]
  by_cases h1 : SUPPORTED_FORMATS.contains e.target = true
  · rw [if_pos h1]
    by_cases hb1 : (isImageMime e.mimetype && IMAGE_FORMATS.contains e.target) = true
    · rw [if_pos hb1]; exact hbranch _
    · rw [if_neg hb1]
      by_cases hb2 : (isImageMime e.mimetype && decide (e.target = "PDF")) = true
      · rw [if_pos hb2]; exact hbranch _
      · rw [if_neg hb2]
        by_cases hb3 : (isPdfMime e.mimetype && IMAGE_FORMATS.contains e.target) = true
        · rw [if_pos hb3]; exact hbranch _
        · rw [if_neg hb3]
          by_cases hb4 : (isPdfMime e.mimetype && decide (e.target = "TXT")) = true
          · rw [if_pos hb4]; exact hbranch _
          · rw [if_neg hb4]
            by_cases hb5 : (isPdfMime e.mimetype && decide (e.target = "WORD")) = true
            · rw [if_pos hb5]; exact hbranch _
            · rw [if_neg hb5]
              dsimp only
              by_cases hb6 : (isWordMime e.mimetype && decide (e.target = "PDF")) = true
              · rw [if_pos hb6]; exact hbranch _
              · rw [if_neg hb6]
                by_cases hb7 : (isWordMime e.mimetype && decide (e.target = "WORD")) = true
                · rw [if_pos hb7]; exact hbranch _
                · rw [if_neg hb7]
                  by_cases hb8 : (isTextMime e.mimetype && decide (e.target = "PDF")) = true
                  · rw [if_pos hb8]; exact hbranch _
                  · rw [if_neg hb8]
                    by_cases hb9 : (isTextMime e.mimetype && decide (e.target = "TXT")) = true
                    · rw [if_pos hb9]; exact hbranch _
                    · rw [if_neg hb9]
                      exact hunsupported
  · rw [if_neg h1]
    exact hinvalid

/-- C1: every outcome of the conversion endpoint is unambiguous — a
success carries a filename and no error, and every failure (invalid
target, unsupported pair, missing file, or a strategy failure reaching
the catch block) carries a non-empty error and no filename. -/
theorem outcome_unambiguous : ∀ e : RouteEnv, GoodOutcome (handleConvert e).1 := by
  intro e
  by_cases hf : e.hasFile = true
  · refine handleConvert_hasFile_cases e hf (fun p => GoodOutcome p.1) ?_ ?_ ?_
    · intro r; exact goodOutcome_finishBranch e r
    · right
      exact ⟨rfl, rfl, unsupportedMsg e, rfl, unsupportedMsg_ne_empty e⟩
    · right
      exact ⟨rfl, rfl, _, rfl, by decide⟩
  · unfold handleConvert
    rw [if_neg hf]
    right
    exact ⟨rfl, rfl, _, rfl, by decide⟩

/-- Witness for C1 at a concrete request. -/
theorem outcome_unambiguous_witness : GoodOutcome (handleConvert ({} : RouteEnv)).1 :=
  outcome_unambiguous {}

/-- C5: whenever a file was uploaded, the handler deletes exactly the
uploaded input file — once, on every path (success, invalid target,
unsupported pair, and the guarded catch path) — and never deletes the
output artifact. -/
theorem input_deleted_exactly_once :
    ∀ e : RouteEnv, e.hasFile = true →
      (handleConvert e).2 = [inputPath e] ∧
      outputPathOf e ∉ (handleConvert e).2 := by
  intro e hf
  have hmain : (handleConvert e).2 = [inputPath e] :=
    handleConvert_hasFile_cases e hf (fun p => p.2 = [inputPath e])
      (fun r => finishBranch_deletes e r) rfl rfl
  refine ⟨hmain, ?_⟩
  rw [hmain]
  simp only [List.mem_singleton]
  exact outputPath_ne_inputPath e

/-- Witness for C5 at a concrete request. -/
theorem input_deleted_exactly_once_witness :
    (handleConvert ({} : RouteEnv)).2 = [inputPath ({} : RouteEnv)] :=
  (input_deleted_exactly_once {} rfl).1

/-- C8: the Text→PDF strategy wraps every line to at most 80 characters
— a line within the budget is emitted unchanged, an over-long line is
broken at the last space at or before index 80 (hard break at exactly 80
when no such space exists) with the remainder trimmed and re-wrapped —
and each wrapped line is drawn at the 50-unit margin with a fixed 38
lines per page (the floor of (792 − 2·50) / (12·1.5)), line `i` landing
on page `i / 38`. -/
theorem text_wrap_and_layout :
    (∀ t : List Char, ∀ l ∈ convertTextToPdfWrapped t, l.length ≤ 80) ∧
    (∀ line : List Char, line.length ≤ 80 → wrapLine line = [line]) ∧
    (∀ line : List Char, 80 < line.length →
      wrapLine line =
        line.take (wrapBreakPoint line) ::
          wrapLoop (jsTrim (line.drop (wrapBreakPoint line)))) ∧
    (∀ (line : List Char) (i : Nat), jsLastSpaceLe line 80 = some i →
      wrapBreakPoint line = i ∧ line.get? i = some ' ' ∧ i ≤ 80 ∧
        ∀ j, j ≤ 80 → line.get? j = some ' ' → j ≤ i) ∧
    (∀ line : List Char, jsLastSpaceLe line 80 = none →
      wrapBreakPoint line = 80 ∧ ∀ j, j ≤ 80 → line.get? j ≠ some ' ') ∧
    marginQ = 50 ∧
    linesPerPage = 38 ∧
    (∀ (t : List Char) (i : Nat) (op : DrawOp),
      (convertTextToPdfOps t).get? i = some op →
      op.x = marginQ ∧ op.page = i / linesPerPage) := by
  refine ⟨?_, ?_, ?_, ?_, ?_, rfl, linesPerPage_eq, ?_⟩
  · intro t l hl
    unfold convertTextToPdfWrapped at hl
    rcases List.mem_flatMap.mp hl with ⟨line, _, hline⟩
    exact wrapLine_length_le line l hline
  · intro line h
    simp only [wrapLine, maxCharsPerLine]
    rw [if_pos h]
  · intro line h
    simp only [wrapLine, maxCharsPerLine]
    rw [if_neg (by omega)]
    rw [wrapLoop]
    simp only [maxCharsPerLine]
    rw [dif_pos h]
  · intro line i h
    have hbp : wrapBreakPoint line = i := by
      unfold wrapBreakPoint maxCharsPerLine
      rw [h]
    exact ⟨hbp, jsLastSpaceLe_mem _ _ _ h, jsLastSpaceLe_le _ _ _ h,
      fun j hj hsp => jsLastSpaceLe_greatest _ _ _ h j hj hsp⟩
  · intro line h
    have hbp : wrapBreakPoint line = 80 := by
      unfold wrapBreakPoint maxCharsPerLine
      rw [h]
    exact ⟨hbp, fun j hj => jsLastSpaceLe_none _ _ h j hj⟩
  · intro t i op h
    unfold convertTextToPdfOps at h
    have := layoutLoop_get? (convertTextToPdfWrapped t) 0 0 (pageHeightQ - marginQ) i op
      (Nat.zero_le _) h
    refine ⟨this.1, ?_⟩
    rw [this.2]
    simp

/-- Witness for C8: the empty line is emitted unchanged, and the page
capacity computes to 38. -/
theorem text_wrap_and_layout_witness :
    wrapLine [] = [[]] ∧ linesPerPage = 38 :=
  ⟨text_wrap_and_layout.2.1 [] (by decide), text_wrap_and_layout.2.2.2.2.2.2.1⟩

end OmniConvert
